import Mathlib

/-!
Verification of the QA dilation engine and the Level-2 QA classifiers.

Rasters are row-major flat buffers modelled as functions `Nat → Nat` from the
flat index `row * ncols + col` to the pixel value; `nrows`, `ncols` and the
dilation distance are natural numbers (the C loop variables `row`, `col` only
ever take the nonnegative values modelled here, and the claims fix
`distance ≥ 0`).  Window coordinates, which can go negative near the raster
edge, are modelled as `Int` exactly as in the C code.  Each embedded dilation
function returns the value the C routine stores at
`output_data[row * ncols + col]` for an in-bounds `(row, col)`.
-/

/-- Shared shape of the window scans of `dilate_class_value`
(src/class_based_qa/class_dilation.c, lines 80-109) and `dilate_pixel_qa`
(src/pixel_qa/pixel_qa_dilation.c, lines 94-125): both run `window_row` from
`row - distance` up to `row + distance` and `window_col` from `col - distance`
up to `col + distance`, `continue` past out-of-bounds coordinates (modelled as
the `false` branch), and short-circuit as soon as the cell test succeeds on
the flat index `window_row * ncols + window_col`.  The two C routines differ
only in the cell test `p`. -/
def window_any (p : Nat → Bool) (distance nrows ncols row col : Nat) : Bool :=
  (List.range (2 * distance + 1)).any fun i =>
    let window_row : Int := (row : Int) - (distance : Int) + (i : Int)
    if window_row < 0 || window_row > (nrows : Int) - 1 then false
    else
      (List.range (2 * distance + 1)).any fun j =>
        let window_col : Int := (col : Int) - (distance : Int) + (j : Int)
        if window_col < 0 || window_col > (ncols : Int) - 1 then false
        else p (window_row.toNat * ncols + window_col.toNat)

/-- Per-pixel embedding of `dilate_class_value`
(src/class_based_qa/class_dilation.c, lines 24-117).  `L2QA_FILL = 255` from
src/class_based_qa/qa_class_values.h.  Fill pixels are copied as 255; a pixel
already equal to the search value short-circuits to the search value; else the
window scan decides between the search value and a byte-for-byte copy. -/
def dilate_class_value (input_data : Nat → Nat) (search_value : Nat)
    (distance nrows ncols row col : Nat) : Nat :=
  let output_index := row * ncols + col
  if input_data output_index == 255 then 255
  else if input_data output_index == search_value then search_value
  else if window_any (fun input_index => input_data input_index == search_value)
      distance nrows ncols row col then search_value
  else input_data output_index

/-- Embeds `pixel_qa_is_fill` (src/pixel_qa/read_pixel_qa.h, lines 72-81):
`((l2_qa_pix >> L2QA_FILL) & L2QA_SINGLE_BIT) == 1` with `L2QA_FILL = 0` and
`L2QA_SINGLE_BIT = 1` from src/pixel_qa/pixel_qa.h. -/
def pixel_qa_is_fill (l2_qa_pix : Nat) : Bool :=
  ((l2_qa_pix >>> 0) &&& 1) == 1

/-- Embeds `pixel_qa_is_clear` (src/pixel_qa/read_pixel_qa.h): bit
`L2QA_CLEAR = 1`. -/
def pixel_qa_is_clear (l2_qa_pix : Nat) : Bool :=
  ((l2_qa_pix >>> 1) &&& 1) == 1

/-- Embeds `pixel_qa_is_cloud_shadow` (src/pixel_qa/read_pixel_qa.h): bit
`L2QA_CLD_SHADOW = 3`. -/
def pixel_qa_is_cloud_shadow (l2_qa_pix : Nat) : Bool :=
  ((l2_qa_pix >>> 3) &&& 1) == 1

/-- Embeds `pixel_qa_is_snow` (src/pixel_qa/read_pixel_qa.h): bit
`L2QA_SNOW = 4`. -/
def pixel_qa_is_snow (l2_qa_pix : Nat) : Bool :=
  ((l2_qa_pix >>> 4) &&& 1) == 1

/-- Embeds `pixel_qa_is_cloud` (src/pixel_qa/read_pixel_qa.h): bit
`L2QA_CLOUD = 5`. -/
def pixel_qa_is_cloud (l2_qa_pix : Nat) : Bool :=
  ((l2_qa_pix >>> 5) &&& 1) == 1

/-- Embeds `pixel_qa_cloud_confidence` (src/pixel_qa/read_pixel_qa.h):
`(l2_qa_pix >> L2QA_CLOUD_CONF1) & L2QA_DOUBLE_BIT` with
`L2QA_CLOUD_CONF1 = 6`, `L2QA_DOUBLE_BIT = 3`. -/
def pixel_qa_cloud_confidence (l2_qa_pix : Nat) : Nat :=
  (l2_qa_pix >>> 6) &&& 3

/-- The `user_bit_mask` of `dilate_pixel_qa`
(src/pixel_qa/pixel_qa_dilation.c, line 55): `pow(2, search_bit)`. -/
def user_bit_mask (search_bit : Nat) : Nat := 2 ^ search_bit

/-- The `cleaning_bit_mask` of `dilate_pixel_qa`
(src/pixel_qa/pixel_qa_dilation.c, lines 57-68): the C code initializes an
`int` mask to all ones and, exactly when the cloud bit (`L2QA_CLOUD = 5`) is
dilated, clears the `L2QA_CLEAR = 1` and `L2QA_CLD_SHADOW = 3` bits.  Stores
into the `uint16_t` output truncate to 16 bits, so only the low 16 bits of
the mask are observable; the mask is modelled by that 16-bit value. -/
def cleaning_bit_mask (search_bit : Nat) : Nat :=
  if search_bit == 5 then 65535 - 2 ^ 1 - 2 ^ 3 else 65535

/-- Per-pixel embedding of `dilate_pixel_qa`
(src/pixel_qa/pixel_qa_dilation.c, lines 25-142).  Fill pixels (fill bit set)
are copied verbatim; otherwise the window scan looks for the search bit
(`(input >> search_bit) & L2QA_SINGLE_BIT` nonzero) and, on a match, stores
`input | user_bit_mask` into the `uint16_t` output (hence the `% 65536`
truncation) and then masks with `cleaning_bit_mask`; on no match the input
pixel is copied. -/
def dilate_pixel_qa (input_data : Nat → Nat) (search_bit : Nat)
    (distance nrows ncols row col : Nat) : Nat :=
  let output_index := row * ncols + col
  if pixel_qa_is_fill (input_data output_index) then input_data output_index
  else if window_any
      (fun input_index => ((input_data input_index >>> search_bit) &&& 1) != 0)
      distance nrows ncols row col then
    ((input_data output_index ||| user_bit_mask search_bit) % 65536) &&&
      cleaning_bit_mask search_bit
  else input_data output_index

/-- Spec-side window predicate, written from the claims' words: some in-bounds
cell `(wr, wc)` with `|wr - row| ≤ d` and `|wc - col| ≤ d` (Chebyshev distance
at most `d`, center included) satisfies the cell test `p`. -/
def cheby_match (p : Nat → Bool) (d nrows ncols row col : Nat) : Prop :=
  ∃ wr wc : Nat, wr < nrows ∧ wc < ncols ∧
    row ≤ wr + d ∧ wr ≤ row + d ∧ col ≤ wc + d ∧ wc ≤ col + d ∧
    p (wr * ncols + wc) = true

/-- The C window scan succeeds exactly when some in-bounds cell within
Chebyshev distance `d` of the center passes the cell test. -/
theorem window_any_iff (p : Nat → Bool) (d nrows ncols row col : Nat) :
    window_any p d nrows ncols row col = true ↔
      cheby_match p d nrows ncols row col := by
  unfold window_any cheby_match
  simp only [List.any_eq_true, List.mem_range]
  constructor
  · rintro ⟨i, hi, hrow⟩
    by_cases hr0 : ((row : Int) - (d : Int) + (i : Int) < 0 ||
        (row : Int) - (d : Int) + (i : Int) > (nrows : Int) - 1) = true
    · rw [if_pos hr0] at hrow
      exact absurd hrow (by simp)
    · rw [if_neg hr0] at hrow
      simp only [Bool.or_eq_true, decide_eq_true_eq, not_or] at hr0
      simp only [List.any_eq_true, List.mem_range] at hrow
      obtain ⟨j, hj, hcol⟩ := hrow
      by_cases hc0 : ((col : Int) - (d : Int) + (j : Int) < 0 ||
          (col : Int) - (d : Int) + (j : Int) > (ncols : Int) - 1) = true
      · rw [if_pos hc0] at hcol
        exact absurd hcol (by simp)
      · rw [if_neg hc0] at hcol
        simp only [Bool.or_eq_true, decide_eq_true_eq, not_or] at hc0
        refine ⟨((row : Int) - (d : Int) + (i : Int)).toNat,
          ((col : Int) - (d : Int) + (j : Int)).toNat,
          by omega, by omega, by omega, by omega, by omega, by omega, hcol⟩
  · rintro ⟨wr, wc, hwr, hwc, h1, h2, h3, h4, hp⟩
    refine ⟨wr + d - row, by omega, ?_⟩
    have hrw : (row : Int) - (d : Int) + ((wr + d - row : Nat) : Int) =
        (wr : Int) := by omega
    rw [hrw]
    rw [if_neg (by simp only [Bool.or_eq_true, decide_eq_true_eq, not_or]; omega)]
    simp only [List.any_eq_true, List.mem_range]
    refine ⟨wc + d - col, by omega, ?_⟩
    have hcw : (col : Int) - (d : Int) + ((wc + d - col : Nat) : Int) =
        (wc : Int) := by omega
    rw [hcw]
    rw [if_neg (by simp only [Bool.or_eq_true, decide_eq_true_eq, not_or]; omega)]
    simpa using hp

/-- Decoded Level-1 QA fields for one pixel, as returned by the accessors of
src/level1_lib/read_level1_qa.h (`level1_qa_is_fill`, `level1_qa_is_cloud`,
`level1_qa_cloud_confidence`, `level1_qa_cloud_shadow_confidence`,
`level1_qa_snow_ice_confidence`, `level1_qa_cirrus_confidence`,
`level1_qa_is_terrain_occluded`).  Each accessor is a pure function of the raw
16-bit Level-1 pixel that masks out one flag bit or one 2-bit confidence
field; the classifiers read the Level-1 pixel only through these accessors,
so they are embedded pointwise over the decoded fields.  The confidence
accessors return values in 0..3 (2-bit mask); theorems that depend on this
carry it as a hypothesis. -/
structure Level1Decoded where
  is_fill : Bool
  is_cloud : Bool
  cloud_confidence : Nat
  cloud_shadow_confidence : Nat
  snow_ice_confidence : Nat
  cirrus_confidence : Nat
  is_terrain_occluded : Bool

/-- Per-pixel embedding of the classification loop of `generate_level2_qa`
(src/level2_lib/generate_level2_qa.c, lines 144-154).  The output buffer is
calloc-initialized to 0 = `L2QA_CLEAR`; the chain assigns `L2QA_FILL = 255`,
`L2QA_CLOUD = 4`, `L2QA_SNOW = 3`, `L2QA_CLD_SHADOW = 2`
(src/class_based_qa/qa_class_values.h) in first-match-wins order, comparing
the snow/ice and cloud-shadow confidences against 3 (high). -/
def generate_level2_qa_pixel (p : Level1Decoded) : Nat :=
  if p.is_fill then 255
  else if p.is_cloud then 4
  else if p.snow_ice_confidence == 3 then 3
  else if p.cloud_shadow_confidence == 3 then 2
  else 0

/-- Per-pixel embedding of the classification loop of `generate_pixel_qa`
(src/pixel_qa/generate_pixel_qa.c, lines 118-119 and 151-212).  The output
pixel starts as `1 << L2QA_CLEAR = 2`; the C statements `x &= ~(1 << k)` on
the `uint16_t` pixel clear bit `k` and are modelled as `&&& (65535 - 2 ^ k)`;
`x |= (1 << k)` is `||| 2 ^ k`.  Bit positions from src/pixel_qa/pixel_qa.h:
fill 0, clear 1, cloud shadow 3, snow 4, cloud 5, cloud confidence 6-7,
cirrus confidence 8-9, terrain occlusion 10.  `qa_category_is_l8` is the
`qa_category == LEVEL1_L8` test guarding the cirrus/terrain block. -/
def generate_pixel_qa_pixel (qa_category_is_l8 : Bool) (p : Level1Decoded) :
    Nat :=
  let v := 2
  if p.is_fill then
    (v &&& (65535 - 2 ^ 1)) ||| 2 ^ 0
  else
    let v := if p.cloud_shadow_confidence == 3 then
      (v &&& (65535 - 2 ^ 1)) ||| 2 ^ 3 else v
    let v := if p.snow_ice_confidence == 3 then
      (v &&& (65535 - 2 ^ 1)) ||| 2 ^ 4 else v
    let v := if p.is_cloud then (v &&& (65535 - 2 ^ 1)) ||| 2 ^ 5 else v
    let v := if p.cloud_confidence == 1 then v ||| 2 ^ 6 else v
    let v := if p.cloud_confidence == 2 then v ||| 2 ^ 7 else v
    let v := if p.cloud_confidence == 3 then
      ((v &&& (65535 - 2 ^ 1)) ||| 2 ^ 6) ||| 2 ^ 7 else v
    if qa_category_is_l8 then
      let v := if p.cirrus_confidence == 1 then v ||| 2 ^ 8 else v
      let v := if p.cirrus_confidence == 2 then v ||| 2 ^ 9 else v
      let v := if p.cirrus_confidence == 3 then (v ||| 2 ^ 8) ||| 2 ^ 9 else v
      if p.is_terrain_occluded then v ||| 2 ^ 10 else v
    else v

/-- C7: the scalar Level-2 class is decided by the first matching rule, in
priority order fill (255) > cloud (4) > snow-high (3) > shadow-high (2) >
clear (0), exclusively. -/
theorem generate_level2_qa_priority (p : Level1Decoded) :
    (p.is_fill = true → generate_level2_qa_pixel p = 255) ∧
    (p.is_fill = false → p.is_cloud = true →
      generate_level2_qa_pixel p = 4) ∧
    (p.is_fill = false → p.is_cloud = false → p.snow_ice_confidence = 3 →
      generate_level2_qa_pixel p = 3) ∧
    (p.is_fill = false → p.is_cloud = false → p.snow_ice_confidence ≠ 3 →
      p.cloud_shadow_confidence = 3 → generate_level2_qa_pixel p = 2) ∧
    (p.is_fill = false → p.is_cloud = false → p.snow_ice_confidence ≠ 3 →
      p.cloud_shadow_confidence ≠ 3 → generate_level2_qa_pixel p = 0) := by
  unfold generate_level2_qa_pixel
  refine ⟨?_, ?_, ?_, ?_, ?_⟩ <;> intros <;> simp_all

/-- C7 witness: a concrete non-fill pixel with the cloud flag set classifies
as cloud (4), even though its snow/ice confidence is high. -/
theorem generate_level2_qa_priority_witness :
    (false = false → true = true →
      generate_level2_qa_pixel ⟨false, true, 0, 0, 3, 0, false⟩ = 4) :=
  (generate_level2_qa_priority ⟨false, true, 0, 0, 3, 0, false⟩).2.1

/-- C9: the scalar classifier only ever produces classes in
{0, 2, 3, 4, 255}; the water class 1 of the enumeration is never assigned. -/
theorem generate_level2_qa_never_water (p : Level1Decoded) :
    (generate_level2_qa_pixel p = 0 ∨ generate_level2_qa_pixel p = 2 ∨
     generate_level2_qa_pixel p = 3 ∨ generate_level2_qa_pixel p = 4 ∨
     generate_level2_qa_pixel p = 255) ∧ generate_level2_qa_pixel p ≠ 1 := by
  unfold generate_level2_qa_pixel
  refine ⟨?_, ?_⟩ <;> split_ifs <;> simp

/-- The center cell is always part of the scan window (Chebyshev distance 0),
so a matching in-bounds center produces a window match for every distance. -/
theorem cheby_center (p : Nat → Bool) (d nrows ncols row col : Nat)
    (hrow : row < nrows) (hcol : col < ncols)
    (hp : p (row * ncols + col) = true) :
    cheby_match p d nrows ncols row col :=
  ⟨row, col, hrow, hcol, by omega, by omega, by omega, by omega, hp⟩

/-- The flat index of an in-bounds cell lies inside the raster buffer. -/
theorem flat_index_lt (wr wc nrows ncols : Nat) (h1 : wr < nrows)
    (h2 : wc < ncols) : wr * ncols + wc < nrows * ncols := by
  calc wr * ncols + wc < wr * ncols + ncols := by omega
  _ = (wr + 1) * ncols := by ring
  _ ≤ nrows * ncols := Nat.mul_le_mul_right _ (by omega)

/-- The C bit test `(x >> b) & 1` agrees with `Nat.testBit`. -/
theorem scan_bit_eq_testBit (x b : Nat) :
    (x >>> b) &&& 1 = (Nat.testBit x b).toNat := by
  rw [Nat.and_one_is_mod, Nat.testBit_to_div_mod, Nat.shiftRight_eq_div_pow]
  rcases Nat.mod_two_eq_zero_or_one (x / 2 ^ b) with h | h <;> simp [h]

/-- Setting a bit that is already set leaves the value unchanged. -/
theorem lor_pow_eq_self_of_scan (x b : Nat) (h : ((x >>> b) &&& 1) ≠ 0) :
    x ||| 2 ^ b = x := by
  apply Nat.eq_of_testBit_eq
  intro j
  rw [Nat.testBit_lor]
  by_cases hj : j = b
  · rw [hj, Nat.testBit_two_pow_self]
    have ht : Nat.testBit x b = true := by
      rw [scan_bit_eq_testBit] at h
      cases hx : Nat.testBit x b
      · rw [hx] at h; simp at h
      · rfl
    simp [ht]
  · rw [Nat.testBit_two_pow_of_ne (fun he => hj he.symm)]
    simp

/-- C1: scalar dilation per in-bounds pixel: a fill (255) input pixel maps to
255; otherwise, if any in-bounds cell at Chebyshev distance at most `d`
equals the search value (center included), the output is the search value;
otherwise the output equals the input pixel byte-for-byte. -/
theorem dilate_class_value_correct (input_data : Nat → Nat)
    (search_value d nrows ncols row col : Nat)
    (hrow : row < nrows) (hcol : col < ncols) :
    (input_data (row * ncols + col) = 255 →
      dilate_class_value input_data search_value d nrows ncols row col =
        255) ∧
    (input_data (row * ncols + col) ≠ 255 →
      cheby_match (fun i => input_data i == search_value) d nrows ncols row
        col →
      dilate_class_value input_data search_value d nrows ncols row col =
        search_value) ∧
    (input_data (row * ncols + col) ≠ 255 →
      ¬ cheby_match (fun i => input_data i == search_value) d nrows ncols row
        col →
      dilate_class_value input_data search_value d nrows ncols row col =
        input_data (row * ncols + col)) := by
  simp only [dilate_class_value]
  refine ⟨?_, ?_, ?_⟩
  · intro h
    rw [if_pos (by simp [h])]
  · intro h hm
    rw [if_neg (by simp [h])]
    by_cases hs : input_data (row * ncols + col) = search_value
    · rw [if_pos (by simp [hs])]
    · rw [if_neg (by simp [hs]), if_pos ((window_any_iff _ _ _ _ _ _).2 hm)]
  · intro h hm
    rw [if_neg (by simp [h])]
    have hs : input_data (row * ncols + col) ≠ search_value := fun hs =>
      hm (cheby_center _ d nrows ncols row col hrow hcol (by simp [hs]))
    rw [if_neg (by simp [hs]),
      if_neg (fun hw => hm ((window_any_iff _ _ _ _ _ _).1 hw))]

/-- C1 witness: on the 1×2 raster [0, 4] with search value 4 and distance 1,
the non-fill pixel (0,0) is overwritten with 4 because its neighbor matches. -/
theorem dilate_class_value_correct_witness :
    (0 : Nat) < 1 ∧ (0 : Nat) < 2 ∧
    dilate_class_value (fun i => if i = 1 then 4 else 0) 4 1 1 2 0 0 = 4 :=
  ⟨by decide, by decide,
    (dilate_class_value_correct (fun i => if i = 1 then 4 else 0) 4 1 1 2 0 0
      (by decide) (by decide)).2.1 (by decide)
      ⟨0, 1, by decide, by decide, by decide, by decide, by decide, by decide,
        by decide⟩⟩

/-- C4: write-side fill invariance for both variants: a scalar fill pixel
(255) stays 255, and a bit-packed fill pixel (fill bit set) keeps its fill
bit in the output. -/
theorem dilate_fill_write_invariance (input_data qa_data : Nat → Nat)
    (search_value search_bit d nrows ncols row col : Nat) :
    (input_data (row * ncols + col) = 255 →
      dilate_class_value input_data search_value d nrows ncols row col =
        255) ∧
    (pixel_qa_is_fill (qa_data (row * ncols + col)) = true →
      pixel_qa_is_fill
        (dilate_pixel_qa qa_data search_bit d nrows ncols row col) = true) := by
  simp only [dilate_class_value, dilate_pixel_qa]
  refine ⟨fun h => by rw [if_pos (by simp [h])], fun h => ?_⟩
  rw [if_pos h]
  exact h

/-- C4 witness: a scalar fill pixel and a bit-packed fill pixel (value
33 = fill+cloud) both remain fill after dilation with distance 2. -/
theorem dilate_fill_write_invariance_witness :
    dilate_class_value (fun _ => 255) 4 2 3 3 1 1 = 255 ∧
    pixel_qa_is_fill (dilate_pixel_qa (fun _ => 33) 5 2 3 3 1 1) = true :=
  ⟨(dilate_fill_write_invariance (fun _ => 255) (fun _ => 33) 4 5 2 3 3 1 1).1
      rfl,
   (dilate_fill_write_invariance (fun _ => 255) (fun _ => 33) 4 5 2 3 3 1 1).2
      (by decide)⟩

/-- C3 counterexample: on the 1×1 raster whose pixel is 35 = fill + clear +
cloud, cloud dilation copies the fill pixel unchanged, so the output pixel
has the cloud bit set while its clear bit is still 1 — the claimed invariant
fails for fill pixels. -/
theorem cloud_exclusion_counterexample :
    pixel_qa_is_cloud (dilate_pixel_qa (fun _ => 35) 5 1 1 1 0 0) = true ∧
    pixel_qa_is_clear (dilate_pixel_qa (fun _ => 35) 5 1 1 1 0 0) = true := by
  decide

/-- C5 counterexample: on the 1×1 raster whose pixel is 34 = clear + cloud,
dilating the cloud bit with distance 0 returns 32, not the input 34: the
center matches itself and the cleaning mask strips the clear bit, so
distance-0 dilation is not the identity for the bit-packed variant. -/
theorem distance_zero_counterexample :
    dilate_pixel_qa (fun _ => 34) 5 0 1 1 0 0 = 32 ∧ (34 : Nat) ≠ 32 := by
  decide

/-- C6 counterexample: on the 1×2 scalar raster [0, 255] with search value
255 and distance 1, the non-fill pixel (0,0) changes from 0 to 255 solely
because a fill window cell matched: fill cells are not inert on the read
side. -/
theorem fill_read_counterexample :
    (fun i => if i = 1 then (255 : Nat) else 0) 0 ≠ 255 ∧
    dilate_class_value (fun i => if i = 1 then 255 else 0) 255 1 1 2 0 0 =
      255 := by
  decide

/-- C2: bit-packed dilation per in-bounds non-fill pixel of a `uint16_t`
raster: if some in-bounds cell within Chebyshev distance `d` has the search
bit set, the output is `input | (1 << search_bit)` and, exactly when the
search bit is the cloud bit (5), the clear bit (1) and cloud_shadow bit (3)
are additionally cleared (for any other search bit the plain OR is stored);
if no window cell has the search bit set, the output pixel equals the input
pixel. -/
theorem dilate_pixel_qa_correct (input_data : Nat → Nat)
    (search_bit d nrows ncols row col : Nat)
    (hrow : row < nrows) (hcol : col < ncols)
    (hin : ∀ i, input_data i < 65536)
    (hfill : pixel_qa_is_fill (input_data (row * ncols + col)) = false) :
    (cheby_match (fun i => ((input_data i >>> search_bit) &&& 1) != 0) d
        nrows ncols row col →
      (search_bit = 5 →
        dilate_pixel_qa input_data search_bit d nrows ncols row col =
          (input_data (row * ncols + col) ||| 2 ^ 5) &&&
            (65535 - 2 ^ 1 - 2 ^ 3)) ∧
      (search_bit ≠ 5 →
        dilate_pixel_qa input_data search_bit d nrows ncols row col =
          input_data (row * ncols + col) ||| 2 ^ search_bit)) ∧
    (¬ cheby_match (fun i => ((input_data i >>> search_bit) &&& 1) != 0) d
        nrows ncols row col →
      dilate_pixel_qa input_data search_bit d nrows ncols row col =
        input_data (row * ncols + col)) := by
  constructor
  · intro hm
    have hb : search_bit < 16 := by
      obtain ⟨wr, wc, hb1, hb2, h1, h2, h3, h4, hp⟩ := hm
      have h16 := hin (wr * ncols + wc)
      have hne : ((input_data (wr * ncols + wc) >>> search_bit) &&& 1) ≠ 0 :=
        by simpa using hp
      have hge : 2 ^ search_bit ≤ input_data (wr * ncols + wc) := by
        by_contra hlt
        rw [Nat.and_one_is_mod, Nat.shiftRight_eq_div_pow] at hne
        exact hne (by rw [Nat.div_eq_of_lt (by omega)])
      have hpow : (2 : Nat) ^ search_bit < 2 ^ 16 :=
        Nat.lt_of_le_of_lt hge (by omega)
      exact (Nat.pow_lt_pow_iff_right (by omega)).1 hpow
    have hlt : input_data (row * ncols + col) ||| 2 ^ search_bit < 65536 := by
      have h2 : (2 : Nat) ^ search_bit < 2 ^ 16 :=
        (Nat.pow_lt_pow_iff_right (by omega)).2 hb
      have := Nat.or_lt_two_pow
        (x := input_data (row * ncols + col)) (y := 2 ^ search_bit) (n := 16)
        (by have := hin (row * ncols + col); omega) h2
      omega
    have hfound := (window_any_iff _ _ _ _ _ _).2 hm
    constructor
    · intro h5
      subst h5
      simp only [dilate_pixel_qa]
      rw [if_neg (by simp [hfill]), if_pos hfound]
      simp only [user_bit_mask, cleaning_bit_mask]
      rw [Nat.mod_eq_of_lt hlt]
      rfl
    · intro h5
      simp only [dilate_pixel_qa]
      rw [if_neg (by simp [hfill]), if_pos hfound]
      simp only [user_bit_mask, cleaning_bit_mask]
      have hc : ((search_bit == 5) : Bool) = false := by simp [h5]
      rw [hc]
      rw [Nat.mod_eq_of_lt hlt]
      have h65535 : (65535 : Nat) = 2 ^ 16 - 1 := by norm_num
      rw [if_neg (by simp)]
      rw [h65535, Nat.and_pow_two_sub_one_of_lt_two_pow (by omega)]
  · intro hm
    have hnf : window_any
        (fun i => ((input_data i >>> search_bit) &&& 1) != 0) d nrows ncols
        row col = false := by
      cases hwa : window_any
          (fun i => ((input_data i >>> search_bit) &&& 1) != 0) d nrows ncols
          row col with
      | false => rfl
      | true => exact absurd ((window_any_iff _ _ _ _ _ _).1 hwa) hm
    simp only [dilate_pixel_qa]
    rw [if_neg (by simp [hfill]), if_neg (by rw [hnf]; simp)]

/-- C2 witness: on the 1×1 raster with pixel 32 (cloud bit set), dilating
the cloud bit stores `(32 | 32)` masked by the cloud cleaning mask. -/
theorem dilate_pixel_qa_correct_witness :
    dilate_pixel_qa (fun _ => 32) 5 1 1 1 0 0 =
      ((32 : Nat) ||| 2 ^ 5) &&& (65535 - 2 ^ 1 - 2 ^ 3) :=
  ((dilate_pixel_qa_correct (fun _ => 32) 5 1 1 1 0 0 (by decide) (by decide)
      (fun _ => (by decide : (32 : Nat) < 65536)) (by decide)).1
    (cheby_center _ 1 1 1 0 0 (by decide) (by decide) (by decide))).1 rfl

/-- The cloud cleaning mask has a zero at the clear bit. -/
theorem cleaning_mask_bit1 : Nat.testBit (65535 - 2 ^ 1 - 2 ^ 3) 1 = false := by
  decide

/-- The cloud cleaning mask has a zero at the cloud-shadow bit. -/
theorem cleaning_mask_bit3 : Nat.testBit (65535 - 2 ^ 1 - 2 ^ 3) 3 = false := by
  decide

/-- Masking with the cloud cleaning mask forces the clear and cloud-shadow
bits of the result to zero. -/
theorem cleaning_mask_kills_clear_shadow (y : Nat) :
    pixel_qa_is_clear (y &&& (65535 - 2 ^ 1 - 2 ^ 3)) = false ∧
    pixel_qa_is_cloud_shadow (y &&& (65535 - 2 ^ 1 - 2 ^ 3)) = false := by
  have h1 : Nat.testBit (y &&& (65535 - 2 ^ 1 - 2 ^ 3)) 1 = false := by
    rw [Nat.testBit_land, cleaning_mask_bit1, Bool.and_false]
  have h3 : Nat.testBit (y &&& (65535 - 2 ^ 1 - 2 ^ 3)) 3 = false := by
    rw [Nat.testBit_land, cleaning_mask_bit3, Bool.and_false]
  constructor
  · simp only [pixel_qa_is_clear, scan_bit_eq_testBit, h1]
    rfl
  · simp only [pixel_qa_is_cloud_shadow, scan_bit_eq_testBit, h3]
    rfl

/-- C3 (amended): cloud mutual exclusion holds on every non-fill pixel:
after dilating the cloud bit, an in-bounds output pixel whose input was not
fill and whose cloud bit is set — newly set by dilation or already set in
the input — has clear bit and cloud_shadow bit both 0.  (Fill pixels are
copied verbatim and are exempt, as the counterexample shows.) -/
theorem dilate_cloud_mutual_exclusion (input_data : Nat → Nat)
    (d nrows ncols row col : Nat) (hrow : row < nrows) (hcol : col < ncols)
    (hfill : pixel_qa_is_fill (input_data (row * ncols + col)) = false)
    (hcloud : pixel_qa_is_cloud
      (dilate_pixel_qa input_data 5 d nrows ncols row col) = true) :
    pixel_qa_is_clear (dilate_pixel_qa input_data 5 d nrows ncols row col) =
      false ∧
    pixel_qa_is_cloud_shadow
      (dilate_pixel_qa input_data 5 d nrows ncols row col) = false := by
  cases hwa : window_any (fun i => ((input_data i >>> 5) &&& 1) != 0) d nrows
      ncols row col with
  | true =>
    have hout : dilate_pixel_qa input_data 5 d nrows ncols row col =
        ((input_data (row * ncols + col) ||| user_bit_mask 5) % 65536) &&&
          (65535 - 2 ^ 1 - 2 ^ 3) := by
      simp only [dilate_pixel_qa]
      rw [if_neg (by simp [hfill]), if_pos hwa]
      rfl
    rw [hout]
    exact cleaning_mask_kills_clear_shadow _
  | false =>
    have hout : dilate_pixel_qa input_data 5 d nrows ncols row col =
        input_data (row * ncols + col) := by
      simp only [dilate_pixel_qa]
      rw [if_neg (by simp [hfill]), if_neg (by rw [hwa]; simp)]
    rw [hout] at hcloud
    exfalso
    have hcm : cheby_match (fun i => ((input_data i >>> 5) &&& 1) != 0) d
        nrows ncols row col := by
      refine cheby_center _ d nrows ncols row col hrow hcol ?_
      simp only [pixel_qa_is_cloud, beq_iff_eq] at hcloud
      simp [hcloud]
    have := (window_any_iff _ _ _ _ _ _).2 hcm
    rw [hwa] at this
    exact Bool.false_ne_true this

/-- C3 witness: for the 1×1 raster with pixel 34 = clear + cloud, the
cloud-dilated output has the cloud bit set and both contradicting bits 0. -/
theorem dilate_cloud_mutual_exclusion_witness :
    pixel_qa_is_clear (dilate_pixel_qa (fun _ => 34) 5 1 1 1 0 0) = false ∧
    pixel_qa_is_cloud_shadow (dilate_pixel_qa (fun _ => 34) 5 1 1 1 0 0) =
      false :=
  dilate_cloud_mutual_exclusion (fun _ => 34) 1 1 1 0 0 (by decide)
    (by decide) (by decide) (by decide)

/-- With distance 0 the scan window of an in-bounds pixel contains exactly
the pixel itself. -/
theorem window_any_zero (p : Nat → Bool) (nrows ncols row col : Nat)
    (hrow : row < nrows) (hcol : col < ncols) :
    window_any p 0 nrows ncols row col = p (row * ncols + col) := by
  have h1 : window_any p 0 nrows ncols row col = true ↔
      p (row * ncols + col) = true := by
    rw [window_any_iff]
    constructor
    · rintro ⟨wr, wc, hb1, hb2, ha1, ha2, ha3, ha4, hp⟩
      have hwr : wr = row := by omega
      have hwc : wc = col := by omega
      rw [hwr, hwc] at hp
      exact hp
    · intro hp
      exact ⟨row, col, hrow, hcol, by omega, by omega, by omega, by omega, hp⟩
  cases hp : p (row * ncols + col) with
  | true => exact h1.2 hp
  | false =>
    cases hwa : window_any p 0 nrows ncols row col with
    | false => rfl
    | true => exact absurd (h1.1 hwa) (by simp [hp])

/-- C5 (amended): with distance 0, the scalar dilation returns every
in-bounds input pixel unchanged; the bit-packed dilation returns every
in-bounds input pixel unchanged whenever the search bit is not the cloud bit
(5), and for the cloud bit it returns every pixel unchanged — fill pixels
(copied verbatim) and non-fill pixels without the cloud bit alike — except
non-fill pixels whose cloud bit is already set, where the clear (1) and
cloud_shadow (3) bits are cleared by the cleaning mask. -/
theorem dilate_distance_zero (input_data qa_data : Nat → Nat)
    (search_value search_bit nrows ncols row col : Nat)
    (hrow : row < nrows) (hcol : col < ncols)
    (hin : ∀ i, qa_data i < 65536) :
    (dilate_class_value input_data search_value 0 nrows ncols row col =
      input_data (row * ncols + col)) ∧
    (search_bit ≠ 5 →
      dilate_pixel_qa qa_data search_bit 0 nrows ncols row col =
        qa_data (row * ncols + col)) ∧
    (pixel_qa_is_fill (qa_data (row * ncols + col)) = true →
      dilate_pixel_qa qa_data 5 0 nrows ncols row col =
        qa_data (row * ncols + col)) ∧
    (pixel_qa_is_fill (qa_data (row * ncols + col)) = false →
      pixel_qa_is_cloud (qa_data (row * ncols + col)) = true →
      dilate_pixel_qa qa_data 5 0 nrows ncols row col =
        qa_data (row * ncols + col) &&& (65535 - 2 ^ 1 - 2 ^ 3)) ∧
    (pixel_qa_is_fill (qa_data (row * ncols + col)) = false →
      pixel_qa_is_cloud (qa_data (row * ncols + col)) = false →
      dilate_pixel_qa qa_data 5 0 nrows ncols row col =
        qa_data (row * ncols + col)) := by
  have hq16 : (65536 : Nat) = 2 ^ 16 := by norm_num
  refine ⟨?_, ?_, ?_, ?_, ?_⟩
  · simp only [dilate_class_value]
    by_cases h255 : input_data (row * ncols + col) = 255
    · rw [if_pos (by simp [h255]), h255]
    · rw [if_neg (by simp [h255])]
      by_cases hs : input_data (row * ncols + col) = search_value
      · rw [if_pos (by simp [hs]), hs]
      · rw [if_neg (by simp [hs]),
          if_neg (by rw [window_any_zero _ nrows ncols row col hrow hcol]
                     simp [hs])]
  · intro hb5
    simp only [dilate_pixel_qa]
    by_cases hf : pixel_qa_is_fill (qa_data (row * ncols + col)) = true
    · rw [if_pos hf]
    · rw [if_neg hf, window_any_zero _ nrows ncols row col hrow hcol]
      by_cases hbit : ((qa_data (row * ncols + col) >>> search_bit) &&& 1) = 0
      · rw [if_neg (by simp [hbit])]
      · rw [if_pos (by simpa using hbit)]
        simp only [user_bit_mask, cleaning_bit_mask]
        rw [lor_pow_eq_self_of_scan _ _ hbit,
          Nat.mod_eq_of_lt (hin _)]
        rw [if_neg (by simp [hb5]),
          (by norm_num : (65535 : Nat) = 2 ^ 16 - 1),
          Nat.and_pow_two_sub_one_of_lt_two_pow
            (by rw [← hq16]; exact hin _)]
  · intro hf
    simp only [dilate_pixel_qa]
    rw [if_pos hf]
  · intro hf hcl
    simp only [dilate_pixel_qa]
    rw [if_neg (by simp [hf]), window_any_zero _ nrows ncols row col hrow hcol]
    have hbit : ((qa_data (row * ncols + col) >>> 5) &&& 1) ≠ 0 := by
      simp only [pixel_qa_is_cloud, beq_iff_eq] at hcl
      simp [hcl]
    rw [if_pos (by simpa using hbit)]
    simp only [user_bit_mask]
    rw [lor_pow_eq_self_of_scan _ _ hbit, Nat.mod_eq_of_lt (hin _)]
    rfl
  · intro hf hcl
    simp only [dilate_pixel_qa]
    rw [if_neg (by simp [hf]), window_any_zero _ nrows ncols row col hrow hcol]
    have hbit : ((qa_data (row * ncols + col) >>> 5) &&& 1) = 0 := by
      rw [Nat.and_one_is_mod]
      rcases Nat.mod_two_eq_zero_or_one (qa_data (row * ncols + col) >>> 5)
        with h2 | h2
      · exact h2
      · exfalso
        simp only [pixel_qa_is_cloud] at hcl
        rw [Nat.and_one_is_mod, h2] at hcl
        simp at hcl
    rw [if_neg (by simp [hbit])]

/-- C5 witness: for the 1×1 raster with pixel 34 = clear + cloud, distance-0
cloud dilation clears the clear bit, returning 34 masked to 32. -/
theorem dilate_distance_zero_witness :
    dilate_pixel_qa (fun _ => 34) 5 0 1 1 0 0 =
      (34 : Nat) &&& (65535 - 2 ^ 1 - 2 ^ 3) :=
  (dilate_distance_zero (fun _ => 7) (fun _ => 34) 3 2 1 1 0 0 (by decide)
      (by decide) (fun _ => (by decide : (34 : Nat) < 65536))).2.2.2.1
    (by decide) (by decide)

/-- C6 (amended): the window scan applies no fill test on the read side, so
fill cells are inert exactly when they cannot carry the search target.
Scalar variant: every matching window cell equals the search value, so when
the search value is not the fill value 255 no fill cell ever causes a match
(the match predicate can be strengthened with non-fillness for free).
Bit-packed variant: if two rasters agree on fill status and on the contents
of non-fill cells, and the fill cells of both carry no search bit, the
outputs at every in-bounds non-fill pixel coincide — the other contents of
fill cells cannot influence the result.  (The counterexample shows that a
fill cell that does carry the search target, scalar search value 255, does
cause a match.) -/
theorem dilate_fill_read_inertness (input_data x y : Nat → Nat)
    (search_value search_bit d nrows ncols row col : Nat)
    (hrow : row < nrows) (hcol : col < ncols) :
    (search_value ≠ 255 →
      (cheby_match (fun i => input_data i == search_value) d nrows ncols row
          col ↔
       cheby_match
         (fun i => input_data i == search_value && !(input_data i == 255)) d
         nrows ncols row col)) ∧
    ((∀ i, i < nrows * ncols →
        pixel_qa_is_fill (x i) = pixel_qa_is_fill (y i) ∧
        (pixel_qa_is_fill (x i) = false → x i = y i) ∧
        (pixel_qa_is_fill (x i) = true →
          ((x i >>> search_bit) &&& 1) = 0 ∧
          ((y i >>> search_bit) &&& 1) = 0)) →
      pixel_qa_is_fill (x (row * ncols + col)) = false →
      dilate_pixel_qa x search_bit d nrows ncols row col =
        dilate_pixel_qa y search_bit d nrows ncols row col) := by
  constructor
  · intro hsv
    constructor
    · rintro ⟨wr, wc, hb1, hb2, ha1, ha2, ha3, ha4, hp⟩
      refine ⟨wr, wc, hb1, hb2, ha1, ha2, ha3, ha4, ?_⟩
      have heq : input_data (wr * ncols + wc) = search_value := by
        simpa using hp
      simp [heq, hsv]
    · rintro ⟨wr, wc, hb1, hb2, ha1, ha2, ha3, ha4, hp⟩
      refine ⟨wr, wc, hb1, hb2, ha1, ha2, ha3, ha4, ?_⟩
      rw [Bool.and_eq_true] at hp
      exact hp.1
  · intro hagree hxfill
    have hidx := flat_index_lt row col nrows ncols hrow hcol
    have hcenter : x (row * ncols + col) = y (row * ncols + col) :=
      (hagree _ hidx).2.1 hxfill
    have hwin : window_any (fun i => ((x i >>> search_bit) &&& 1) != 0) d
        nrows ncols row col =
        window_any (fun i => ((y i >>> search_bit) &&& 1) != 0) d nrows ncols
          row col := by
      have htrans : ∀ u v : Nat → Nat,
          (∀ i, i < nrows * ncols →
            pixel_qa_is_fill (u i) = pixel_qa_is_fill (v i) ∧
            (pixel_qa_is_fill (u i) = false → u i = v i) ∧
            (pixel_qa_is_fill (u i) = true →
              ((u i >>> search_bit) &&& 1) = 0 ∧
              ((v i >>> search_bit) &&& 1) = 0)) →
          window_any (fun i => ((u i >>> search_bit) &&& 1) != 0) d nrows
            ncols row col = true →
          window_any (fun i => ((v i >>> search_bit) &&& 1) != 0) d nrows
            ncols row col = true := by
        intro u v hag huw
        obtain ⟨wr, wc, hb1, hb2, ha1, ha2, ha3, ha4, hp⟩ :=
          (window_any_iff _ _ _ _ _ _).1 huw
        have hi := hag _ (flat_index_lt wr wc nrows ncols hb1 hb2)
        have hnf : pixel_qa_is_fill (u (wr * ncols + wc)) = false := by
          cases hxf : pixel_qa_is_fill (u (wr * ncols + wc)) with
          | false => rfl
          | true =>
            have hz := (hi.2.2 hxf).1
            have hp' : (((u (wr * ncols + wc) >>> search_bit) &&& 1) != 0) =
                true := hp
            rw [hz] at hp'
            simp at hp'
        have hcell := hi.2.1 hnf
        refine (window_any_iff _ _ _ _ _ _).2
          ⟨wr, wc, hb1, hb2, ha1, ha2, ha3, ha4, ?_⟩
        show (((v (wr * ncols + wc) >>> search_bit) &&& 1) != 0) = true
        rw [← hcell]
        exact hp
      have hsymm : ∀ i, i < nrows * ncols →
          pixel_qa_is_fill (y i) = pixel_qa_is_fill (x i) ∧
          (pixel_qa_is_fill (y i) = false → y i = x i) ∧
          (pixel_qa_is_fill (y i) = true →
            ((y i >>> search_bit) &&& 1) = 0 ∧
            ((x i >>> search_bit) &&& 1) = 0) := by
        intro i hi
        obtain ⟨h1, h2, h3⟩ := hagree i hi
        refine ⟨h1.symm, fun hf => (h2 (by rw [h1]; exact hf)).symm,
          fun hf => ?_⟩
        obtain ⟨hx0, hy0⟩ := h3 (by rw [h1]; exact hf)
        exact ⟨hy0, hx0⟩
      cases hxw : window_any (fun i => ((x i >>> search_bit) &&& 1) != 0) d
          nrows ncols row col with
      | true => exact (htrans x y hagree hxw).symm
      | false =>
        cases hyw : window_any (fun i => ((y i >>> search_bit) &&& 1) != 0) d
            nrows ncols row col with
        | false => rfl
        | true =>
          have := htrans y x hsymm hyw
          rw [hxw] at this
          exact absurd this (by simp)
    have hyfill : pixel_qa_is_fill (y (row * ncols + col)) = false := by
      rw [← (hagree _ hidx).1]
      exact hxfill
    simp only [dilate_pixel_qa]
    rw [hcenter, hwin]

/-- C6 witness: on the 1×2 scalar raster [4, 255] with search value 4 the
match predicate is equivalent to its non-fill restriction; and the two 1×2
bit-packed rasters [2, 1] and [2, 69] — which differ only in the extra
water/confidence bits their fill cell carries, neither carrying the cloud
bit — produce the same output at the non-fill pixel (0,0) under cloud
dilation with distance 1. -/
theorem dilate_fill_read_inertness_witness :
    (cheby_match (fun i => (if i = 1 then (255 : Nat) else 4) == 4) 1 1 2 0 0
      ↔ cheby_match
        (fun i => ((if i = 1 then (255 : Nat) else 4) == 4) &&
          !((if i = 1 then (255 : Nat) else 4) == 255)) 1 1 2 0 0) ∧
    dilate_pixel_qa (fun i => if i = 1 then 1 else 2) 5 1 1 2 0 0 =
      dilate_pixel_qa (fun i => if i = 1 then 69 else 2) 5 1 1 2 0 0 :=
  ⟨(dilate_fill_read_inertness (fun i => if i = 1 then 255 else 4)
      (fun i => if i = 1 then 1 else 2) (fun i => if i = 1 then 69 else 2)
      4 5 1 1 2 0 0 (by decide) (by decide)).1 (by decide),
   (dilate_fill_read_inertness (fun i => if i = 1 then 255 else 4)
      (fun i => if i = 1 then 1 else 2) (fun i => if i = 1 then 69 else 2)
      4 5 1 1 2 0 0 (by decide) (by decide)).2
    (fun i hi => by
      rcases i with _ | _ | n
      · exact ⟨by decide, fun _ => by decide, fun h => absurd h (by decide)⟩
      · exact ⟨by decide, fun h => absurd h (by decide),
          fun _ => ⟨by decide, by decide⟩⟩
      · exact absurd hi (by omega))
    (by decide)⟩

set_option maxHeartbeats 4000000 in
/-- C8: bit-packed classification per pixel: a fill pixel yields exactly
fill-bit-only output (value 1, clear bit removed, nothing else evaluated);
otherwise the cloud_shadow (3), snow (4) and cloud (5) bits reflect their
conditions independently, the 2-bit cloud_confidence field at bits 6-7 is
written verbatim (low = 1 sets bit 6 only, moderate = 2 sets bit 7 only,
high = 3 sets both), and the clear bit survives exactly when none of the
clear-clearing conditions (shadow high, snow high, cloud flag, cloud
confidence high) fired. -/
theorem generate_pixel_qa_fields (l8 : Bool) (p : Level1Decoded) :
    (p.is_fill = true → generate_pixel_qa_pixel l8 p = 1) ∧
    (p.is_fill = false →
      pixel_qa_is_cloud_shadow (generate_pixel_qa_pixel l8 p) =
        (p.cloud_shadow_confidence == 3) ∧
      pixel_qa_is_snow (generate_pixel_qa_pixel l8 p) =
        (p.snow_ice_confidence == 3) ∧
      pixel_qa_is_cloud (generate_pixel_qa_pixel l8 p) = p.is_cloud ∧
      (p.cloud_confidence = 0 →
        pixel_qa_cloud_confidence (generate_pixel_qa_pixel l8 p) = 0) ∧
      (p.cloud_confidence = 1 →
        pixel_qa_cloud_confidence (generate_pixel_qa_pixel l8 p) = 1) ∧
      (p.cloud_confidence = 2 →
        pixel_qa_cloud_confidence (generate_pixel_qa_pixel l8 p) = 2) ∧
      (p.cloud_confidence = 3 →
        pixel_qa_cloud_confidence (generate_pixel_qa_pixel l8 p) = 3) ∧
      pixel_qa_is_clear (generate_pixel_qa_pixel l8 p) =
        (!(p.cloud_shadow_confidence == 3) && !(p.snow_ice_confidence == 3) &&
          !p.is_cloud && !(p.cloud_confidence == 3))) := by
  obtain ⟨f, cl, cc, csc, sic, circ, toc⟩ := p
  refine ⟨?_, ?_⟩
  · intro hf
    subst hf
    rfl
  · intro hf
    subst hf
    by_cases h1 : csc = 3 <;> by_cases h2 : sic = 3 <;> cases cl <;>
      by_cases h3 : cc = 1 <;> by_cases h4 : cc = 2 <;> by_cases h5 : cc = 3 <;>
      cases l8 <;> by_cases h6 : circ = 1 <;> by_cases h7 : circ = 2 <;>
      by_cases h8 : circ = 3 <;> cases toc <;>
      simp_all [generate_pixel_qa_pixel, pixel_qa_is_cloud_shadow,
        pixel_qa_is_snow, pixel_qa_is_cloud, pixel_qa_is_clear,
        pixel_qa_cloud_confidence] <;> simp +decide

/-- C8 witness: an L8 pixel with high shadow confidence, cloud flag set and
moderate cloud confidence gets the cloud bit. -/
theorem generate_pixel_qa_fields_witness :
    generate_pixel_qa_pixel false ⟨true, false, 0, 0, 0, 0, false⟩ = 1 ∧
    pixel_qa_is_cloud
      (generate_pixel_qa_pixel true ⟨false, true, 2, 3, 0, 1, true⟩) = true :=
  ⟨(generate_pixel_qa_fields false ⟨true, false, 0, 0, 0, 0, false⟩).1 rfl,
   by
    have h := (generate_pixel_qa_fields true ⟨false, true, 2, 3, 0, 1, true⟩).2
      rfl
    rw [h.2.2.1]⟩

set_option maxHeartbeats 8000000 in
/-- C10: clear-bit exclusivity of the bit-packed classifier: the clear bit
of every produced pixel is set exactly when the fill, cloud_shadow, snow and
cloud bits are all 0 and the cloud_confidence field is not 3; clear and fill
are never both set; a fill pixel's output value is exactly 1. -/
theorem generate_pixel_qa_clear_exclusive (l8 : Bool) (p : Level1Decoded) :
    (pixel_qa_is_clear (generate_pixel_qa_pixel l8 p) = true ↔
      (pixel_qa_is_fill (generate_pixel_qa_pixel l8 p) = false ∧
       pixel_qa_is_cloud_shadow (generate_pixel_qa_pixel l8 p) = false ∧
       pixel_qa_is_snow (generate_pixel_qa_pixel l8 p) = false ∧
       pixel_qa_is_cloud (generate_pixel_qa_pixel l8 p) = false ∧
       pixel_qa_cloud_confidence (generate_pixel_qa_pixel l8 p) ≠ 3)) ∧
    (¬ (pixel_qa_is_clear (generate_pixel_qa_pixel l8 p) = true ∧
        pixel_qa_is_fill (generate_pixel_qa_pixel l8 p) = true)) ∧
    (p.is_fill = true → generate_pixel_qa_pixel l8 p = 1) := by
  obtain ⟨f, cl, cc, csc, sic, circ, toc⟩ := p
  cases f
  case true =>
    refine ⟨?_, ?_, ?_⟩ <;>
      · show _
        have hv : generate_pixel_qa_pixel l8
            ⟨true, cl, cc, csc, sic, circ, toc⟩ = 1 := rfl
        rw [hv]
        simp +decide [pixel_qa_is_clear, pixel_qa_is_fill,
          pixel_qa_is_cloud_shadow, pixel_qa_is_snow, pixel_qa_is_cloud,
          pixel_qa_cloud_confidence]
  case false =>
    by_cases h1 : csc = 3 <;> by_cases h2 : sic = 3 <;> cases cl <;>
      by_cases h3 : cc = 1 <;> by_cases h4 : cc = 2 <;> by_cases h5 : cc = 3 <;>
      cases l8 <;> by_cases h6 : circ = 1 <;> by_cases h7 : circ = 2 <;>
      by_cases h8 : circ = 3 <;> cases toc <;>
      simp_all [generate_pixel_qa_pixel, pixel_qa_is_clear, pixel_qa_is_fill,
        pixel_qa_is_cloud_shadow, pixel_qa_is_snow, pixel_qa_is_cloud,
        pixel_qa_cloud_confidence] <;> simp +decide

/-- C10 witness: a fill pixel classifies to the value 1 exactly. -/
theorem generate_pixel_qa_clear_exclusive_witness :
    generate_pixel_qa_pixel true ⟨true, true, 3, 3, 3, 3, true⟩ = 1 :=
  (generate_pixel_qa_clear_exclusive true
    ⟨true, true, 3, 3, 3, 3, true⟩).2.2 rfl

/-- C9 witness: the all-false decoded pixel classifies to 0 and not to the
water class 1. -/
theorem generate_level2_qa_never_water_witness :
    (generate_level2_qa_pixel ⟨false, false, 0, 0, 0, 0, false⟩ = 0 ∨
     generate_level2_qa_pixel ⟨false, false, 0, 0, 0, 0, false⟩ = 2 ∨
     generate_level2_qa_pixel ⟨false, false, 0, 0, 0, 0, false⟩ = 3 ∨
     generate_level2_qa_pixel ⟨false, false, 0, 0, 0, 0, false⟩ = 4 ∨
     generate_level2_qa_pixel ⟨false, false, 0, 0, 0, 0, false⟩ = 255) ∧
    generate_level2_qa_pixel ⟨false, false, 0, 0, 0, 0, false⟩ ≠ 1 :=
  generate_level2_qa_never_water ⟨false, false, 0, 0, 0, 0, false⟩
